import Mathlib

/-!
Shallow embedding of the autopsi repository (src/autopsi/simulator.py and
src/autopsi/gates.py) and verification of the frozen claims about it.

Modelling conventions:
* The numpy `complex` dtype (the default, used throughout the claims) is
  modelled by `ℂ`; numpy `float` by `ℝ`.  Floating-point rounding is not
  modelled; the claims under verification are about exact algebraic values
  (with explicit tolerances where the spec states them).
* The constructor parameters `backend`, `dtype` and `device` of
  `Tensor.__init__` are configuration that does not change any computed
  value (the device only selects where the multiply runs), so they are not
  fields of the embedded state.
* A Python method call that raises partway leaves the receiver with every
  mutation made before the raise; this is modelled by `StepOutcome.raised`,
  which carries the partially mutated object.
-/

namespace Autopsi

/-- Python exception classes that the modelled numpy calls can raise. -/
inductive PyError
  | typeError
  | valueError
deriving DecidableEq

/-- The `Tensor` simulator object of src/autopsi/simulator.py, with a state
vector of length `n`.  Fields are exactly the value-relevant instance
attributes set in `__init__` (lines 14–30): `self.state` (the amplitude
vector, dtype complex), `self.history` (the list created by
`self.history = []` on line 25) and `self.trace`. -/
structure Tensor (n : ℕ) where
  state : Fin n → ℂ
  history : List (Fin n → ℂ)
  trace : Bool

/-- `Tensor.__init__` with an explicit `entrypoint` list of length `n` and a
`trace` flag: the state starts as the entrypoint and the history as the empty
list (simulator.py lines 25–30). -/
def Tensor.construct (n : ℕ) (entrypoint : Fin n → ℂ) (trace : Bool) : Tensor n :=
  { state := entrypoint, history := [], trace := trace }

/-- `Tensor()` with all defaults: `entrypoint=None` gives the state `[1, 0]`
and `trace=True` (simulator.py lines 14–30). -/
def tensorDefault : Tensor 2 := Tensor.construct 2 ![1, 0] true

/-- A gate matrix as handed to `Tensor.step`: a square numpy array of some
dimension `dim`, modelled as an entry function on ℕ indices (only indices
below `dim` are meaningful).  Keeping the dimension as data models numpy's
dynamic shape checking in `matmul`. -/
structure Gate where
  dim : ℕ
  entry : ℕ → ℕ → ℂ

/-- Read a `Gate` back as an `n × n` matrix (meaningful when `dim = n`). -/
def Gate.toMatrix (g : Gate) (n : ℕ) : Matrix (Fin n) (Fin n) ℂ :=
  Matrix.of fun i j => g.entry i.val j.val

/-- Package an `n × n` matrix as a `Gate` of dimension `n`. -/
def Gate.ofMatrix {n : ℕ} (M : Matrix (Fin n) (Fin n) ℂ) : Gate :=
  { dim := n
    entry := fun i j =>
      if hi : i < n then if hj : j < n then M ⟨i, hi⟩ ⟨j, hj⟩ else 0 else 0 }

theorem Gate.toMatrix_ofMatrix {n : ℕ} (M : Matrix (Fin n) (Fin n) ℂ) :
    (Gate.ofMatrix M).toMatrix n = M := by
  funext i j
  simp [Gate.toMatrix, Gate.ofMatrix, i.isLt, j.isLt]

/-- Outcome of a Python method call on a `Tensor` that may raise: on a raise
the exception propagates and the object keeps every mutation made before the
raise point, so the partially mutated object is carried alongside. -/
inductive StepOutcome (n : ℕ)
  | ok (t : Tensor n)
  | raised (e : PyError) (t : Tensor n)

/-- The state vector of the object after the call, whether or not it raised. -/
def StepOutcome.stateOf {n : ℕ} : StepOutcome n → (Fin n → ℂ)
  | StepOutcome.ok t => t.state
  | StepOutcome.raised _ t => t.state

/-- The history list of the object after the call, whether or not it raised. -/
def StepOutcome.historyOf {n : ℕ} : StepOutcome n → List (Fin n → ℂ)
  | StepOutcome.ok t => t.history
  | StepOutcome.raised _ t => t.history

/-- `Tensor.step` (simulator.py lines 32–52).  With `tensor=None` it is a
no-op.  Otherwise: if `self.trace` is `True` the current state is appended to
`self.history` (line 43); then `numpy.matmul(self.state, tensor)` multiplies
the length-`n` row vector by the gate matrix, which raises `ValueError` when
the gate's dimension differs from `n` — after the history append has already
happened.  On success the product replaces `self.state`.  The `device`
branch (lines 45–52) computes the same product on a different device and is
not value-relevant. -/
noncomputable def Tensor.step {n : ℕ} (t : Tensor n) (g? : Option Gate) : StepOutcome n :=
  match g? with
  | none => StepOutcome.ok t
  | some g =>
    let t1 := if t.trace then { t with history := t.history ++ [t.state] } else t
    if _h : g.dim = n then
      StepOutcome.ok { t1 with state := Matrix.vecMul t1.state (g.toMatrix n) }
    else
      StepOutcome.raised PyError.valueError t1

/-- The `for i in tensors: self.step(tensor=i)` loop inside `Tensor.batch`
(simulator.py lines 85–87): steps are applied left to right; a raise inside
one step aborts the loop and propagates, keeping the mutations so far. -/
noncomputable def Tensor.stepFold {n : ℕ} (t : Tensor n) : List Gate → StepOutcome n
  | [] => StepOutcome.ok t
  | g :: gs =>
    match t.step (some g) with
    | StepOutcome.ok t' => t'.stepFold gs
    | StepOutcome.raised e t' => StepOutcome.raised e t'

/-- `Tensor.batch` (simulator.py lines 78–87): a no-op when `tensors` is
`None`, otherwise the sequential step loop over the list. -/
noncomputable def Tensor.batch {n : ℕ} (t : Tensor n) (tensors : Option (List Gate)) : StepOutcome n :=
  match tensors with
  | none => StepOutcome.ok t
  | some gs => t.stepFold gs

/-- One sequential call in the spec-side reference for claim C6: from the
outcome of the previous call, invoke `step` with the next gate (an earlier
raise propagates, skipping the remaining calls). -/
noncomputable def stepThen {n : ℕ} (r : StepOutcome n) (g : Gate) : StepOutcome n :=
  match r with
  | StepOutcome.ok u => u.step (some g)
  | StepOutcome.raised e u => StepOutcome.raised e u

/-- Modelled from the spec's words for the refinement claim C6: the effect of
the caller invoking `step(G1)`, then `step(G2)`, ..., in the given order,
each call starting from the object the previous call left behind. -/
noncomputable def seqSteps {n : ℕ} (t : Tensor n) (gs : List Gate) : StepOutcome n :=
  gs.foldl stepThen (StepOutcome.ok t)

theorem foldl_stepThen_raised {n : ℕ} (e : PyError) (t' : Tensor n) (gs : List Gate) :
    gs.foldl stepThen (StepOutcome.raised e t') = StepOutcome.raised e t' := by
  induction gs with
  | nil => rfl
  | cons g gs ih => simpa [stepThen] using ih

/-- `Tensor.amplitudes` (simulator.py lines 54–59): returns `self.state`. -/
def Tensor.amplitudes {n : ℕ} (t : Tensor n) : Fin n → ℂ :=
  t.state

/-- `Tensor.probabilities` (simulator.py lines 61–67): returns
`self.state ** 2`, the elementwise (complex) square of the amplitude
vector — not the squared magnitude. -/
def Tensor.probabilities {n : ℕ} (t : Tensor n) : Fin n → ℂ :=
  fun i => t.state i ^ 2

/-- A Python attribute as produced by attribute lookup on an instance:
either a data attribute found in the instance `__dict__`, or a bound method
found on the class.  Plain functions on the class are non-data descriptors,
so an instance attribute of the same name shadows them. -/
inductive PyAttr (α : Type) (β : Type)
  | data : α → PyAttr α β
  | bound : β → PyAttr α β

/-- Calling the result of an attribute lookup: a list stored as a data
attribute is not callable, so Python raises `TypeError`; a bound method call
returns the method body's value. -/
def PyAttr.call {α β : Type} : PyAttr α β → Except PyError β
  | PyAttr.data _ => Except.error PyError.typeError
  | PyAttr.bound b => Except.ok b

/-- Lookup of the name `history` on a `Tensor` instance.  `__init__` executes
`self.history = []` (simulator.py line 25), storing a list in the instance
`__dict__`; instance attributes shadow the class-level method `history`
(lines 69–76), so lookup always yields the list data attribute. -/
def Tensor.historyAttr {n : ℕ} (t : Tensor n) :
    PyAttr (List (Fin n → ℂ)) (Option (List (Fin n → ℂ))) :=
  PyAttr.data t.history

/-- The body of the class-level method `Tensor.history` (simulator.py lines
69–76), were it reachable: `if self.history: return self.history` returns the
log when non-empty, otherwise falls through to Python's implicit `None`. -/
def Tensor.historyMethodBody {n : ℕ} (t : Tensor n) : Option (List (Fin n → ℂ)) :=
  if t.history.isEmpty then none else some t.history

/-- The call expression `t.history()`: attribute lookup followed by a call. -/
def Tensor.historyCall {n : ℕ} (t : Tensor n) :
    Except PyError (Option (List (Fin n → ℂ))) :=
  t.historyAttr.call

/-- `Tensor.count_qubits` (simulator.py lines 115–127): the loop counts one
per entry of `probabilities()`, giving the state-vector length `n`, and the
return value is `numpy.divide(n, 2)` — true division, modelled exactly in ℚ. -/
def Tensor.count_qubits {n : ℕ} (t : Tensor n) : ℚ :=
  let num_probabilities : ℕ := (List.finRange n).map t.probabilities |>.length
  (num_probabilities : ℚ) / 2

/-- C2: the claim says `history()` never raises and returns the log or an
explicit empty signal.  In fact `self.history = []` in `__init__` shadows the
method of the same name, so `t.history()` looks up the list and calling a
list raises `TypeError` — on every `Tensor`, whatever its state. -/
theorem history_call_raises_typeError (n : ℕ) (t : Tensor n) :
    t.historyCall = Except.error PyError.typeError :=
  rfl

/-- C6: `batch` applied to a list of gate matrices produces exactly the same
outcome (final amplitude vector, history log, and raise behaviour) as calling
`step` once per matrix, left to right, with no reordering. -/
theorem batch_eq_sequential_steps (n : ℕ) (t : Tensor n) (gs : List Gate) :
    t.batch (some gs) = seqSteps t gs := by
  show t.stepFold gs = seqSteps t gs
  induction gs generalizing t with
  | nil => rfl
  | cons g gs ih =>
    cases hstep : t.step (some g) with
    | ok t' =>
      simp only [Tensor.stepFold, hstep, seqSteps, List.foldl_cons, stepThen]
      exact ih t'
    | raised e t' =>
      simp only [Tensor.stepFold, hstep, seqSteps, List.foldl_cons, stepThen]
      exact (foldl_stepThen_raised e t' gs).symm

theorem two_mul_lt_two_pow (k : ℕ) (hk : 3 ≤ k) : 2 * k < 2 ^ k := by
  induction k with
  | zero => omega
  | succ k ih =>
    rcases Nat.lt_or_ge k 3 with h3 | h3
    · interval_cases k
      · omega
      · omega
      · decide
    · have h2 : 2 * k < 2 ^ k := ih h3
      have hp : 2 ^ (k + 1) = 2 * 2 ^ k := by ring
      omega

/-- C10: `count_qubits()` returns the state-vector length `L` divided by 2
(half the number of probability entries), not `log2(L)`; among power-of-two
lengths `L = 2^k` it agrees with the true qubit count `k` exactly when `L`
is 2 or 4. -/
theorem count_qubits_half_length (n : ℕ) (t : Tensor n) :
    t.count_qubits = (n : ℚ) / 2 ∧
      ∀ k : ℕ, n = 2 ^ k → (t.count_qubits = (k : ℚ) ↔ n = 2 ∨ n = 4) := by
  have hcq : t.count_qubits = (n : ℚ) / 2 := by
    simp [Tensor.count_qubits]
  refine ⟨hcq, ?_⟩
  intro k hn
  rw [hcq, hn]
  constructor
  · intro h
    have hq : (((2 : ℕ) ^ k : ℕ) : ℚ) = 2 * (k : ℚ) := by
      push_cast at h ⊢
      linarith
    have hN : (2 : ℕ) ^ k = 2 * k := by exact_mod_cast hq
    rcases Nat.lt_or_ge k 3 with h3 | h3
    · interval_cases k
      · norm_num at hN
      · left; norm_num
      · right; norm_num
    · exact absurd hN.symm (Nat.ne_of_lt (two_mul_lt_two_pow k h3))
  · intro h
    rcases h with h | h
    · have hk : k = 1 :=
        Nat.pow_right_injective (le_refl 2) (show 2 ^ k = 2 ^ 1 by norm_num [h])
      subst hk
      norm_num
    · have hk : k = 2 :=
        Nat.pow_right_injective (le_refl 2) (show 2 ^ k = 2 ^ 2 by norm_num [h])
      subst hk
      norm_num

/-- An all-zero Tensor of length 8, used to instantiate `count_qubits` at a
length where `L / 2` differs from `log2 L`. -/
def tensor8 : Tensor 8 := Tensor.construct 8 (fun _ => 0) true

theorem count_qubits_half_length_witness :
    tensor8.count_qubits = (8 : ℚ) / 2 ∧
      (tensor8.count_qubits = (3 : ℚ) ↔ (8 : ℕ) = 2 ∨ (8 : ℕ) = 4) :=
  ⟨(count_qubits_half_length 8 tensor8).1,
   (count_qubits_half_length 8 tensor8).2 3 rfl⟩

/-- A 3×3 all-zero gate: its dimension 3 mismatches the default state
length 2, so `matmul` raises on it. -/
def gate3 : Gate := { dim := 3, entry := fun _ _ => 0 }

/-- C3 counterexample: on the default Engine (tracing enabled) a `step` with
a dimension-mismatched gate does NOT leave the Engine unchanged — the current
state has already been appended to the History Log when the multiply raises,
so the log after the failed call differs from the log before it. -/
theorem step_mismatch_mutates_history :
    (tensorDefault.step (some gate3)).historyOf ≠ tensorDefault.history := by
  simp [Tensor.step, tensorDefault, Tensor.construct, gate3, StepOutcome.historyOf]

/-- C3 amended: `step` with a gate whose dimension mismatches the
state-vector length raises `ValueError` from the matrix multiply and leaves
the amplitude vector unchanged, but the check happens only after the
trace append: when tracing is enabled the current state has already been
pushed onto the History Log; with tracing disabled the Engine is unchanged. -/
theorem step_mismatch_raises_after_trace_append (n : ℕ) (t : Tensor n) (g : Gate)
    (h : g.dim ≠ n) :
    t.step (some g) =
      StepOutcome.raised PyError.valueError
        { t with history := t.history ++ if t.trace then [t.state] else [] } := by
  obtain ⟨s, hist, tr⟩ := t
  cases tr <;> simp [Tensor.step, h]

theorem step_mismatch_raises_after_trace_append_witness :
    gate3.dim ≠ 2 ∧
      tensorDefault.step (some gate3) =
        StepOutcome.raised PyError.valueError
          { tensorDefault with
              history := tensorDefault.history ++
                if tensorDefault.trace then [tensorDefault.state] else [] } :=
  ⟨by decide, step_mismatch_raises_after_trace_append 2 tensorDefault gate3 (by decide)⟩

/-- Engine constructed with the caller-supplied entrypoint [1j, 0] — a
normalized state reachable directly through `__init__`. -/
noncomputable def tensorImag : Tensor 2 := Tensor.construct 2 ![Complex.I, 0] true

/-- C1: the claim says `probabilities()` is the elementwise squared magnitude
|a|² (non-negative real).  The code computes `state ** 2`, the complex
square: on the reachable state [1j, 0] it yields −1 in component 0, while
the squared magnitude is 1 — so the claim fails on the code. -/
theorem probabilities_squares_not_normSq :
    tensorImag.probabilities 0 = -1 ∧
      ((Complex.abs (tensorImag.amplitudes 0) : ℝ) : ℂ) ^ 2 = 1 ∧
      tensorImag.probabilities 0 ≠ ((Complex.abs (tensorImag.amplitudes 0) : ℝ) : ℂ) ^ 2 := by
  have h0 : tensorImag.amplitudes 0 = Complex.I := by
    simp [tensorImag, Tensor.construct, Tensor.amplitudes]
  have h1 : tensorImag.probabilities 0 = -1 := by
    simp [Tensor.probabilities, tensorImag, Tensor.construct, Complex.I_sq]
  refine ⟨h1, ?_, ?_⟩
  · rw [h0]
    simp [Complex.abs_I]
  · rw [h1, h0]
    simp [Complex.abs_I]
    norm_num

/-- The `return_as_type` argument of `Tensor.measure`: the Python type object
the caller asks the result to be rendered as (`int` is the default). -/
inductive PyType
  | intType
  | strType
deriving DecidableEq

/-- `numpy.binary_repr` with no width argument: the minimal-width base-2
digit string of a non-negative integer (no zero padding). -/
def npBinaryRepr (k : ℕ) : String :=
  (Nat.toDigits 2 k).asString

/-- The `value` keyword of `Tensor.astype`: which array to copy. -/
inductive AsTypeValue
  | amplitudesValue
  | probabilitiesValue

/-- `Tensor.astype` (simulator.py lines 89–112) at `dtype=float`, the way
`measure` calls it: each complex item cast to float keeps only its real part
(numpy's documented lossy complex-to-float conversion). -/
noncomputable def Tensor.astype {n : ℕ} (t : Tensor n) (value : AsTypeValue) : Fin n → ℝ :=
  fun i =>
    ((match value with
      | AsTypeValue.amplitudesValue => t.amplitudes
      | AsTypeValue.probabilitiesValue => t.probabilities) i).re

open Classical in
/-- `numpy.random.choice(range(n), p=p)`: validates the weights (raising
`ValueError` when they are negative or do not sum to 1) and returns one
index of positive weight.  The randomness is modelled by the `sample`
oracle argument: the index the generator drew. -/
noncomputable def npRandomChoice (n : ℕ) (p : Fin n → ℝ) (sample : Fin n) :
    Except PyError (Fin n) :=
  if (∀ i, 0 ≤ p i) ∧ (∑ i, p i) = 1 ∧ 0 < p sample then
    Except.ok sample
  else
    Except.error PyError.valueError

/-- `Tensor.measure` (simulator.py lines 129–159), the random draw supplied
by the `sample` oracle, threaded through the object so frame effects are
visible.  The method counts the probability entries, computes
`num_qubits = n / 2` (computed but never used afterwards), casts the
probabilities to float (real parts), draws a weighted index, and returns
`numpy.binary_repr` of that index.  The `return_as_type` argument is never
consulted, so the result is always a minimal-width binary string.  Every
sub-operation only reads the object, so the object comes back unchanged. -/
noncomputable def Tensor.measureRun {n : ℕ} (t : Tensor n) (_return_as_type : PyType)
    (sample : Fin n) : Except PyError String × Tensor n :=
  let num_probabilities : ℕ := ((List.finRange n).map t.probabilities).length
  let _num_qubits : ℚ := (num_probabilities : ℚ) / 2
  let probabilities_as_float := t.astype AsTypeValue.probabilitiesValue
  ((npRandomChoice n probabilities_as_float sample).map (fun k => npBinaryRepr k.val), t)

/-- The value `Tensor.measure` returns to the caller. -/
noncomputable def Tensor.measure {n : ℕ} (t : Tensor n) (return_as_type : PyType)
    (sample : Fin n) : Except PyError String :=
  (t.measureRun return_as_type sample).1

/-- C5: `measure` leaves the amplitude vector and the History Log exactly as
they were — measurement is non-collapsing and mutates nothing, for every
Engine state, requested result type, and draw. -/
theorem measure_leaves_state_unchanged (n : ℕ) (t : Tensor n) (rt : PyType) (s : Fin n) :
    (t.measureRun rt s).2.state = t.state ∧ (t.measureRun rt s).2.history = t.history :=
  ⟨rfl, rfl⟩

/-- Engine over a length-4 state vector with amplitudes [0.5, 0.5, 0.5, 0.5]
(a normalized real state), used to exhibit the width of the measure result. -/
noncomputable def tensorQuarter : Tensor 4 :=
  Tensor.construct 4
    ![((1 / 2 : ℝ) : ℂ), ((1 / 2 : ℝ) : ℂ), ((1 / 2 : ℝ) : ℂ), ((1 / 2 : ℝ) : ℂ)] true

/-- C4: the claim says `measure` renders the drawn index as an integer when
an integer type is requested (the default) or as a binary string of width
log2(vector length).  In fact the `return_as_type` argument is ignored: on
the default Engine the result is the string "0" whatever type is requested,
and on a length-4 state a draw of index 1 gives "1", not the fixed-width
"01" of width log2(4) = 2. -/
theorem measure_returns_binary_string :
    (∀ rt : PyType, tensorDefault.measure rt ⟨0, by norm_num⟩ = Except.ok "0") ∧
      tensorQuarter.measure PyType.intType ⟨1, by norm_num⟩ = Except.ok "1" := by
  constructor
  · intro rt
    show ((npRandomChoice 2 (tensorDefault.astype AsTypeValue.probabilitiesValue)
        ⟨0, by norm_num⟩).map (fun k => npBinaryRepr k.val)) = Except.ok "0"
    have hp : ∀ i : Fin 2,
        tensorDefault.astype AsTypeValue.probabilitiesValue i = if i = 0 then 1 else 0 := by
      intro i
      fin_cases i <;>
        simp [Tensor.astype, Tensor.probabilities, Tensor.amplitudes, tensorDefault,
          Tensor.construct]
    rw [npRandomChoice, if_pos]
    · rfl
    · refine ⟨fun i => ?_, ?_, ?_⟩
      · rw [hp i]
        split <;> norm_num
      · simp [Fin.sum_univ_two, hp]
      · rw [hp ⟨0, by norm_num⟩]
        norm_num
  · show ((npRandomChoice 4 (tensorQuarter.astype AsTypeValue.probabilitiesValue)
        ⟨1, by norm_num⟩).map (fun k => npBinaryRepr k.val)) = Except.ok "1"
    have hp : ∀ i : Fin 4,
        tensorQuarter.astype AsTypeValue.probabilitiesValue i = 1 / 4 := by
      intro i
      fin_cases i <;>
        simp [Tensor.astype, Tensor.probabilities, Tensor.amplitudes, tensorQuarter,
          Tensor.construct, ← Complex.ofReal_pow] <;> norm_num
    rw [npRandomChoice, if_pos]
    · rfl
    · refine ⟨fun i => ?_, ?_, ?_⟩
      · rw [hp i]
        norm_num
      · simp only [Fin.sum_univ_four, hp]
        norm_num
      · rw [hp ⟨1, by norm_num⟩]
        norm_num

/-- The flat array `[1, 1, 1, -1]` built inside `h.tensor` (gates.py lines
27–38) before the division and reshape. -/
def h_flat : Fin 4 → ℂ := ![1, 1, 1, -1]

/-- `h.tensor` (gates.py lines 27–38): the flat array divided elementwise by
`sqrt(2)` and reshaped row-major to 2×2, so entry `(i, j)` is
`flat[2·i + j] / √2`. -/
noncomputable def h_gate : Gate :=
  { dim := 2
    entry := fun i j =>
      (if h : 2 * i + j < 4 then h_flat ⟨2 * i + j, h⟩ else 0) / ((Real.sqrt 2 : ℝ) : ℂ) }

/-- `step` with a dimension-matching gate: the multiply succeeds, the state
becomes `state ᵥ* gate`, and the prior state is recorded iff tracing is on. -/
theorem Tensor.step_matched {n : ℕ} (t : Tensor n) (g : Gate) (hdim : g.dim = n) :
    t.step (some g) = StepOutcome.ok
      { state := Matrix.vecMul t.state (g.toMatrix n)
        history := t.history ++ if t.trace then [t.state] else []
        trace := t.trace } := by
  obtain ⟨s, hist, tr⟩ := t
  cases tr <;> simp [Tensor.step, hdim]

/-- C7: applying the Hadamard gate via `step` to the default Engine (basis
state [1, 0]) succeeds and yields amplitudes whose components are exactly
1/√2 ≈ 0.70710678 with zero imaginary part — in particular each component is
within 1e-9 of 1/√2. -/
theorem hadamard_step_amplitudes :
    ∃ u : Tensor 2, tensorDefault.step (some h_gate) = StepOutcome.ok u ∧
      ∀ j : Fin 2,
        u.state j = ((Real.sqrt 2 : ℝ) : ℂ)⁻¹ ∧
        Complex.abs (u.state j - ((Real.sqrt 2 : ℝ) : ℂ)⁻¹) < 1e-9 ∧
        (u.state j).im = 0 := by
  refine ⟨_, Tensor.step_matched tensorDefault h_gate rfl, ?_⟩
  have hs : ∀ j : Fin 2,
      Matrix.vecMul tensorDefault.state (h_gate.toMatrix 2) j
        = ((Real.sqrt 2 : ℝ) : ℂ)⁻¹ := by
    intro j
    fin_cases j <;>
      simp [Matrix.vecMul, Matrix.dotProduct, Fin.sum_univ_two, Gate.toMatrix, h_gate,
        h_flat, tensorDefault, Tensor.construct, one_div]
  intro j
  refine ⟨hs j, ?_, ?_⟩
  · show Complex.abs (Matrix.vecMul tensorDefault.state (h_gate.toMatrix 2) j
        - ((Real.sqrt 2 : ℝ) : ℂ)⁻¹) < 1e-9
    rw [hs j]
    simp only [sub_self, map_zero]
    norm_num
  · show (Matrix.vecMul tensorDefault.state (h_gate.toMatrix 2) j).im = 0
    rw [hs j, ← Complex.ofReal_inv]
    simp

/-- A numpy ufunc such as `exp` applied to a scalar with a second positional
argument: the second positional parameter of a ufunc is `out`, which must be
an ndarray, so passing the scalar produced by `np.multiply` raises
`TypeError`; with no `out`, the value is the exponential of the input. -/
noncomputable def np_exp (x : ℝ) (out : Option ℂ) : Except PyError ℝ :=
  match out with
  | none => Except.ok (Real.exp x)
  | some _ => Except.error PyError.typeError

/-- `u1.u2.tensor` (gates.py lines 126–191) with parameters `phi` and
`lmda`: builds the four elements `1`, `-exp(e, i·λ)`, `exp(e, i·φ)`,
`exp(e, i·(φ+λ))`, where `e` is numpy's Euler constant and each `exp` call
passes the intended exponent as the second positional (out) argument. -/
noncomputable def u2_tensor (phi lmda : ℝ) : Except PyError (List ℂ) := do
  let i : ℂ := Complex.I
  let second ← np_exp (Real.exp 1) (some (i * (lmda : ℂ)))
  let third ← np_exp (Real.exp 1) (some (i * (phi : ℂ)))
  let fourth ← np_exp (Real.exp 1) (some (i * ((phi : ℂ) + (lmda : ℂ))))
  return [1, -((second : ℝ) : ℂ), ((third : ℝ) : ℂ), ((fourth : ℝ) : ℂ)]

/-- C8: requesting the U2(φ=1, λ=1) matrix does not yield the four claimed
elements [1, -e^i, e^i, e^(2i)] — the tensor method raises `TypeError`,
because every `exp` call passes its intended exponent as numpy's out
parameter (and the test's module-level `gates.u2` does not even exist: `u2`
is nested inside the class `u1`). -/
theorem u2_tensor_raises :
    u2_tensor 1 1 = Except.error PyError.typeError ∧
      ∀ v : List ℂ, u2_tensor 1 1 ≠ Except.ok v := by
  refine ⟨rfl, fun v h => ?_⟩
  rw [show u2_tensor 1 1 = Except.error PyError.typeError from rfl] at h
  exact Except.noConfusion h

/-- Sum of squared magnitudes of an amplitude vector — the quantity the
normalization invariant is about. -/
noncomputable def normSqSum {n : ℕ} (v : Fin n → ℂ) : ℝ :=
  ∑ i, Complex.normSq (v i)

/-- A unitary matrix: its conjugate transpose is its inverse. -/
def IsUnitary {n : ℕ} (M : Matrix (Fin n) (Fin n) ℂ) : Prop :=
  M * M.conjTranspose = 1 ∧ M.conjTranspose * M = 1

theorem normSqSum_eq_dotProduct {n : ℕ} (v : Fin n → ℂ) :
    ((normSqSum v : ℝ) : ℂ) = Matrix.dotProduct v (star v) := by
  rw [Matrix.dotProduct]
  push_cast [normSqSum]
  refine Finset.sum_congr rfl fun i _ => ?_
  rw [Pi.star_apply, Complex.star_def, Complex.mul_conj]

theorem normSqSum_vecMul {n : ℕ} (v : Fin n → ℂ) (M : Matrix (Fin n) (Fin n) ℂ)
    (hM : M * M.conjTranspose = 1) :
    normSqSum (Matrix.vecMul v M) = normSqSum v := by
  have h : ((normSqSum (Matrix.vecMul v M) : ℝ) : ℂ) = ((normSqSum v : ℝ) : ℂ) := by
    rw [normSqSum_eq_dotProduct, normSqSum_eq_dotProduct, Matrix.star_vecMul,
      Matrix.dotProduct_mulVec, Matrix.vecMul_vecMul, hM, Matrix.vecMul_one]
  exact_mod_cast h

/-- C9: from any normalized state, applying any finite sequence of
dimension-matching unitary gate matrices via `step` succeeds and keeps the
sum of squared magnitudes of the amplitude vector equal to 1. -/
theorem step_preserves_normalization (n : ℕ) (t : Tensor n)
    (h1 : normSqSum t.state = 1) (gs : List Gate)
    (hg : ∀ g ∈ gs, g.dim = n ∧ IsUnitary (g.toMatrix n)) :
    ∃ t' : Tensor n, t.stepFold gs = StepOutcome.ok t' ∧ normSqSum t'.state = 1 := by
  induction gs generalizing t with
  | nil => exact ⟨t, rfl, h1⟩
  | cons g gs ih =>
    obtain ⟨hdim, hU⟩ := hg g (List.mem_cons_self g gs)
    have hnorm : normSqSum (Matrix.vecMul t.state (g.toMatrix n)) = 1 := by
      rw [normSqSum_vecMul _ _ hU.1, h1]
    obtain ⟨t', ht', hn'⟩ :=
      ih { state := Matrix.vecMul t.state (g.toMatrix n)
           history := t.history ++ if t.trace then [t.state] else []
           trace := t.trace }
        hnorm (fun g' hg' => hg g' (List.mem_cons_of_mem g hg'))
    refine ⟨t', ?_, hn'⟩
    show t.stepFold (g :: gs) = StepOutcome.ok t'
    simp only [Tensor.stepFold, Tensor.step_matched t g hdim]
    exact ht'

/-- The identity gate on a length-2 state, a concrete unitary gate. -/
def identityGate2 : Gate := Gate.ofMatrix (1 : Matrix (Fin 2) (Fin 2) ℂ)

theorem step_preserves_normalization_witness :
    normSqSum tensorDefault.state = 1 ∧
      (∀ g ∈ [identityGate2], g.dim = 2 ∧ IsUnitary (g.toMatrix 2)) ∧
      ∃ t' : Tensor 2, tensorDefault.stepFold [identityGate2] = StepOutcome.ok t' ∧
        normSqSum t'.state = 1 := by
  have h1 : normSqSum tensorDefault.state = 1 := by
    simp [normSqSum, tensorDefault, Tensor.construct, Fin.sum_univ_two]
  have hg : ∀ g ∈ [identityGate2], g.dim = 2 ∧ IsUnitary (g.toMatrix 2) := by
    intro g hgmem
    simp only [List.mem_singleton] at hgmem
    subst hgmem
    exact ⟨rfl, by simp [identityGate2, Gate.toMatrix_ofMatrix, IsUnitary]⟩
  exact ⟨h1, hg, step_preserves_normalization 2 tensorDefault h1 [identityGate2] hg⟩

end Autopsi
